import Mathlib

/-!
Verification of the resilience and token-security core of the
`shora-ai-payment-sdk` repository.

Part 1 embeds `src/src/circuit-breaker.js` (classes `CircuitBreaker` and
`RetryManager`).  Machine time (`Date.now()`) is modelled as a `Nat`
supplied to each call; JavaScript numbers used for delays are modelled as
rationals (`ℚ`), and `Math.random()` as an explicit parameter `r` with
`0 ≤ r < 1`.  A JavaScript comparison `now < this.nextAttempt` where
`nextAttempt` may be `null` coerces `null` to `0`, which the model renders
as `now < cb.nextAttempt.getD 0`.
-/

namespace ShoraSDK

/-- The three states of `CircuitBreaker.state`
(`'CLOSED' | 'OPEN' | 'HALF_OPEN'` in the source). -/
inductive CircuitState where
  | CLOSED
  | OPEN
  | HALF_OPEN
deriving DecidableEq, Repr

/-- The `metrics` record of `CircuitBreaker`. -/
structure Metrics where
  totalRequests : Nat
  successfulRequests : Nat
  failedRequests : Nat
  circuitOpened : Nat
  circuitClosed : Nat
deriving DecidableEq, Repr

/-- State of a `CircuitBreaker` instance: configuration fields
(`failureThreshold`, `resetTimeout`; the unused `timeout` and
`monitoringPeriod` are omitted) together with the mutable fields set by the
constructor. -/
structure CircuitBreaker where
  failureThreshold : Nat
  resetTimeout : Nat
  state : CircuitState
  failureCount : Nat
  lastFailureTime : Option Nat
  nextAttempt : Option Nat
  successCount : Nat
  metrics : Metrics
deriving DecidableEq, Repr

/-- `new CircuitBreaker({failureThreshold, resetTimeout})`. -/
def CircuitBreaker.init (failureThreshold resetTimeout : Nat) : CircuitBreaker :=
  { failureThreshold := failureThreshold
    resetTimeout := resetTimeout
    state := .CLOSED
    failureCount := 0
    lastFailureTime := none
    nextAttempt := none
    successCount := 0
    metrics := ⟨0, 0, 0, 0, 0⟩ }

/-- `CircuitBreaker.onSuccess()`. -/
def CircuitBreaker.onSuccess (cb : CircuitBreaker) : CircuitBreaker :=
  let cb := { cb with
    metrics := { cb.metrics with successfulRequests := cb.metrics.successfulRequests + 1 }
    failureCount := 0 }
  if cb.state = .HALF_OPEN then
    let sc := cb.successCount + 1
    if sc ≥ 3 then
      { cb with state := .CLOSED
                metrics := { cb.metrics with circuitClosed := cb.metrics.circuitClosed + 1 }
                successCount := 0 }
    else
      { cb with successCount := sc }
  else cb

/-- `CircuitBreaker.onFailure()`, with `Date.now()` passed in as `now`. -/
def CircuitBreaker.onFailure (cb : CircuitBreaker) (now : Nat) : CircuitBreaker :=
  let cb := { cb with
    metrics := { cb.metrics with failedRequests := cb.metrics.failedRequests + 1 }
    failureCount := cb.failureCount + 1
    lastFailureTime := some now }
  if cb.failureCount ≥ cb.failureThreshold then
    { cb with state := .OPEN
              nextAttempt := some (now + cb.resetTimeout)
              metrics := { cb.metrics with circuitOpened := cb.metrics.circuitOpened + 1 } }
  else cb

/-- Outcome of one `CircuitBreaker.execute` call: the fast rejection thrown
while the circuit is open, or the propagated result of the wrapped
operation. -/
inductive ExecResult where
  | blocked
  | succeeded
  | failed
deriving DecidableEq, Repr

/-- One call to `CircuitBreaker.execute(fn)` at time `now`, where the wrapped
operation — if invoked — succeeds iff `op = true`.  Returns the new breaker
state, the outcome, and whether the wrapped operation was invoked. -/
def CircuitBreaker.execute (cb : CircuitBreaker) (now : Nat) (op : Bool) :
    CircuitBreaker × ExecResult × Bool :=
  let cb := { cb with
    metrics := { cb.metrics with totalRequests := cb.metrics.totalRequests + 1 } }
  if cb.state = .OPEN ∧ now < cb.nextAttempt.getD 0 then
    (cb, .blocked, false)
  else
    let cb := if cb.state = .OPEN then { cb with state := .HALF_OPEN, successCount := 0 } else cb
    if op then (cb.onSuccess, .succeeded, true)
    else (cb.onFailure now, .failed, true)

/-- Run a sequence of `execute` calls, each given as a pair
`(now, operation outcome)`; also counts how often the wrapped operation was
actually invoked. -/
def CircuitBreaker.runTrace (cb : CircuitBreaker) :
    List (Nat × Bool) → CircuitBreaker × Nat
  | [] => (cb, 0)
  | (now, op) :: rest =>
    let (cb', _, invoked) := cb.execute now op
    let (cbEnd, n) := cb'.runTrace rest
    (cbEnd, (if invoked then 1 else 0) + n)

/-- Configuration of `RetryManager`: `maxRetries` plus the delay parameters
(rationals, since they enter `calculateDelay`'s real-number arithmetic). -/
structure RetryManager where
  maxRetries : Nat
  baseDelay : ℚ
  maxDelay : ℚ
  backoffMultiplier : ℚ
  jitter : ℚ
deriving DecidableEq, Repr

/-- The `RetryManager` built by `new RetryManager({})` (all defaults). -/
def RetryManager.default : RetryManager :=
  { maxRetries := 3, baseDelay := 1000, maxDelay := 30000
    backoffMultiplier := 2, jitter := 1/10 }

/-- `RetryManager.calculateDelay(attempt)` with the `Math.random()` draw
passed in as `r`.  Note the source adds the jitter to the *unclamped*
exponential term and only then takes the minimum with `maxDelay`. -/
def RetryManager.calculateDelay (rm : RetryManager) (attempt : Nat) (r : ℚ) : ℤ :=
  let exponentialDelay := rm.baseDelay * rm.backoffMultiplier ^ attempt
  let jitterAmount := exponentialDelay * rm.jitter * r
  let delay := min (exponentialDelay + jitterAmount) rm.maxDelay
  ⌊delay⌋

/-- The delay formula as the specification words it: clamp the exponential
term to `maxDelay` first, then add the jitter on top of the clamped value.
(Stated for comparison with `RetryManager.calculateDelay`, which is the
source's formula.) -/
def RetryManager.calculateDelaySpec (rm : RetryManager) (attempt : Nat) (r : ℚ) : ℤ :=
  let delay := min (rm.baseDelay * rm.backoffMultiplier ^ attempt) rm.maxDelay
  ⌊delay + delay * rm.jitter * r⌋

/-- The retry loop of `RetryManager.execute(fn)`: `fn attempt` is the result
of the `attempt`-th invocation (`0`-indexed) of the wrapped operation;
`remaining` counts the attempts still allowed after the current one.  On the
final attempt (`remaining = 0`, i.e. `attempt === maxRetries`) the failure is
rethrown.  Also returns the number of invocations performed. -/
def RetryManager.executeLoop (fn : Nat → Except ε α) :
    Nat → Nat → Except ε α × Nat
  | attempt, 0 => (fn attempt, 1)
  | attempt, remaining + 1 =>
    match fn attempt with
    | .ok a => (.ok a, 1)
    | .error _ =>
      let (res, n) := executeLoop fn (attempt + 1) remaining
      (res, 1 + n)

/-- `RetryManager.execute(fn)` (the sleeps between attempts do not affect the
result and are elided): the result propagated to the caller together with the
number of invocations of `fn`. -/
def RetryManager.execute (rm : RetryManager) (fn : Nat → Except ε α) :
    Except ε α × Nat :=
  RetryManager.executeLoop fn 0 rm.maxRetries

/-! ### Helper lemmas for the circuit breaker -/

/-- Unfolding one step of `runTrace`. -/
theorem CircuitBreaker.runTrace_cons (cb : CircuitBreaker) (now : Nat) (op : Bool)
    (rest : List (Nat × Bool)) :
    cb.runTrace ((now, op) :: rest) =
      (((cb.execute now op).1.runTrace rest).1,
       (if (cb.execute now op).2.2 then 1 else 0) +
         ((cb.execute now op).1.runTrace rest).2) := by
  simp [CircuitBreaker.runTrace]

/-- A call issued while the breaker is `OPEN` and the cool-down has not
elapsed is rejected: only `metrics.totalRequests` changes, the outcome is
`blocked`, and the wrapped operation is not invoked. -/
theorem CircuitBreaker.execute_open_blocked (cb : CircuitBreaker) (now : Nat) (op : Bool)
    (hstate : cb.state = .OPEN) (htime : now < cb.nextAttempt.getD 0) :
    cb.execute now op =
      ({ cb with metrics :=
          { cb.metrics with totalRequests := cb.metrics.totalRequests + 1 } },
       .blocked, false) := by
  simp [CircuitBreaker.execute, hstate, htime]

/-- A failing call on a `CLOSED` breaker that has not yet reached the
threshold stays `CLOSED`, increments `failureCount`, and leaves the
configuration fields unchanged. -/
theorem CircuitBreaker.execute_closed_failure_below (cb : CircuitBreaker) (now : Nat)
    (hstate : cb.state = .CLOSED)
    (hbelow : cb.failureCount + 1 < cb.failureThreshold) :
    ((cb.execute now false).1.state = .CLOSED ∧
     (cb.execute now false).1.failureCount = cb.failureCount + 1 ∧
     (cb.execute now false).1.failureThreshold = cb.failureThreshold ∧
     (cb.execute now false).1.resetTimeout = cb.resetTimeout) ∧
    (cb.execute now false).2.2 = true := by
  have hnotopen : ¬ cb.state = .OPEN := by rw [hstate]; intro h; cases h
  have hcond : ¬ cb.failureCount + 1 ≥ cb.failureThreshold := by omega
  simp [CircuitBreaker.execute, hstate, hnotopen, CircuitBreaker.onFailure, hcond]

/-- A failing call on a `CLOSED` breaker whose `failureCount` reaches the
threshold opens the circuit and sets `nextAttempt := now + resetTimeout`. -/
theorem CircuitBreaker.execute_closed_failure_reach (cb : CircuitBreaker) (now : Nat)
    (hstate : cb.state = .CLOSED)
    (hreach : cb.failureCount + 1 ≥ cb.failureThreshold) :
    ((cb.execute now false).1.state = .OPEN ∧
     (cb.execute now false).1.nextAttempt = some (now + cb.resetTimeout) ∧
     (cb.execute now false).1.resetTimeout = cb.resetTimeout) ∧
    (cb.execute now false).2.2 = true := by
  have hnotopen : ¬ cb.state = .OPEN := by rw [hstate]; intro h; cases h
  simp [CircuitBreaker.execute, hstate, hnotopen, CircuitBreaker.onFailure, hreach]

/-- Feeding a `CLOSED` breaker exactly the failures it still needs to reach
its threshold opens it, with `nextAttempt` computed from the time of the last
failing call, every call invoking the wrapped operation. -/
theorem CircuitBreaker.runTrace_failures_opens :
    ∀ (ts : List Nat) (cb : CircuitBreaker) (hne : ts ≠ []),
    cb.state = .CLOSED →
    cb.failureCount + ts.length = cb.failureThreshold →
    (cb.runTrace (ts.map fun t => (t, false))).1.state = .OPEN ∧
    (cb.runTrace (ts.map fun t => (t, false))).1.nextAttempt =
      some (ts.getLast hne + cb.resetTimeout) ∧
    (cb.runTrace (ts.map fun t => (t, false))).2 = ts.length
  | [], _, hne, _, _ => absurd rfl hne
  | [t], cb, _, hstate, hlen => by
    have hreach : cb.failureCount + 1 ≥ cb.failureThreshold := by
      simp at hlen; omega
    have h := cb.execute_closed_failure_reach t hstate hreach
    simp [CircuitBreaker.runTrace, h.1.1, h.1.2.1, h.2, List.getLast]
  | t :: t' :: ts', cb, _, hstate, hlen => by
    have hbelow : cb.failureCount + 1 < cb.failureThreshold := by
      simp at hlen; omega
    have h := cb.execute_closed_failure_below t hstate hbelow
    have hlen' : (cb.execute t false).1.failureCount + (t' :: ts').length
        = (cb.execute t false).1.failureThreshold := by
      rw [h.1.2.1, h.1.2.2.1]; simp at hlen ⊢; omega
    have IH := CircuitBreaker.runTrace_failures_opens (t' :: ts') (cb.execute t false).1
      (by simp) h.1.1 hlen'
    rw [h.1.2.2.2] at IH
    rw [List.map_cons, CircuitBreaker.runTrace_cons]
    refine ⟨IH.1, ?_, ?_⟩
    · rw [IH.2.1]
      simp [List.getLast_cons]
    · rw [h.2, IH.2.2]
      simp
      omega

/-! ### Claim theorems for the circuit breaker and retry manager -/

/-- C2 (amended): in `HALF_OPEN`, a failed call transitions the breaker to
`OPEN` (with `nextAttemptTime = now + resetTimeout`) exactly when the
incremented `failureCount` reaches `failureThreshold`; otherwise the breaker
stays `HALF_OPEN` and `nextAttempt` is left unchanged.  (Since `failureCount`
carries over from the `OPEN` episode, a failure with no prior `HALF_OPEN`
success does reopen immediately; a success first resets `failureCount` to 0,
after which a failure does not reopen.) -/
theorem C2_halfOpen_failure (cb : CircuitBreaker) (now : Nat)
    (h : cb.state = .HALF_OPEN) :
    ((cb.execute now false).1.state = .OPEN ↔
      cb.failureThreshold ≤ cb.failureCount + 1) ∧
    (cb.failureThreshold ≤ cb.failureCount + 1 →
      (cb.execute now false).1.nextAttempt = some (now + cb.resetTimeout)) ∧
    (¬ cb.failureThreshold ≤ cb.failureCount + 1 →
      (cb.execute now false).1.state = .HALF_OPEN ∧
      (cb.execute now false).1.nextAttempt = cb.nextAttempt) := by
  have hnotopen : ¬ cb.state = .OPEN := by rw [h]; intro hc; cases hc
  by_cases hth : cb.failureThreshold ≤ cb.failureCount + 1 <;>
    simp [CircuitBreaker.execute, hnotopen, CircuitBreaker.onFailure,
      ge_iff_le, hth, h]

/-- The default breaker (`failureThreshold = 5`, `resetTimeout = 30000`). -/
def cbDefault : CircuitBreaker := CircuitBreaker.init 5 30000

/-- Five failures at `t = 0` (opening the circuit), then one success at
`t = 30000`, which moves the breaker to `HALF_OPEN` and — via `onSuccess` —
resets `failureCount` to `0`. -/
def c2prefix : List (Nat × Bool) :=
  [(0, false), (0, false), (0, false), (0, false), (0, false), (30000, true)]

/-- C2 (counterexample): after one success in `HALF_OPEN`, a failing call at
`t = 30001` does **not** transition the breaker back to `OPEN` — it stays
`HALF_OPEN` and `nextAttempt` keeps its stale value `30000` instead of being
freshly set, contradicting the claim. -/
theorem C2_counterexample :
    (cbDefault.runTrace c2prefix).1.state = CircuitState.HALF_OPEN ∧
    ((cbDefault.runTrace c2prefix).1.execute 30001 false).1.state ≠
      CircuitState.OPEN ∧
    ((cbDefault.runTrace c2prefix).1.execute 30001 false).1.nextAttempt =
      some 30000 := by
  decide

/-- A reachable `HALF_OPEN` state whose carried-over `failureCount` is at the
threshold (no success has occurred since the circuit opened). -/
def cbHalfOpenW : CircuitBreaker :=
  { failureThreshold := 5, resetTimeout := 30000, state := .HALF_OPEN
    failureCount := 5, lastFailureTime := some 0, nextAttempt := some 30000
    successCount := 0, metrics := ⟨6, 0, 5, 1, 0⟩ }

/-- C2 witness: concrete instantiation of `C2_halfOpen_failure`. -/
theorem C2_witness :
    ((cbHalfOpenW.execute 30001 false).1.state = .OPEN ↔
      cbHalfOpenW.failureThreshold ≤ cbHalfOpenW.failureCount + 1) ∧
    (cbHalfOpenW.failureThreshold ≤ cbHalfOpenW.failureCount + 1 →
      (cbHalfOpenW.execute 30001 false).1.nextAttempt =
        some (30001 + cbHalfOpenW.resetTimeout)) ∧
    (¬ cbHalfOpenW.failureThreshold ≤ cbHalfOpenW.failureCount + 1 →
      (cbHalfOpenW.execute 30001 false).1.state = .HALF_OPEN ∧
      (cbHalfOpenW.execute 30001 false).1.nextAttempt = cbHalfOpenW.nextAttempt) :=
  C2_halfOpen_failure cbHalfOpenW 30001 (by decide)

/-- C4: `failureThreshold` consecutive failures on a fresh `CLOSED` breaker
open the circuit, every one of those calls invoking the wrapped operation;
a subsequent call issued while `now < nextAttemptTime` is rejected as
blocked without invoking the wrapped operation, so the invocation count
contributed by that call is zero. -/
theorem C4_threshold_opens_then_blocks (cb : CircuitBreaker) (ts : List Nat)
    (now : Nat) (op : Bool) (hne : ts ≠ [])
    (hstate : cb.state = .CLOSED) (hfc : cb.failureCount = 0)
    (hlen : ts.length = cb.failureThreshold)
    (hnow : now < ts.getLast hne + cb.resetTimeout) :
    (cb.runTrace (ts.map fun t => (t, false))).1.state = .OPEN ∧
    (cb.runTrace (ts.map fun t => (t, false))).2 = cb.failureThreshold ∧
    ((cb.runTrace (ts.map fun t => (t, false))).1.execute now op).2 =
      (ExecResult.blocked, false) := by
  have h := CircuitBreaker.runTrace_failures_opens ts cb hne hstate (by omega)
  refine ⟨h.1, by rw [h.2.2, hlen], ?_⟩
  have hblocked := CircuitBreaker.execute_open_blocked
    (cb.runTrace (ts.map fun t => (t, false))).1 now op h.1
    (by rw [h.2.1]; simpa using hnow)
  rw [hblocked]

/-- C4 witness: concrete instantiation of `C4_threshold_opens_then_blocks`
on the default breaker with five failures at `t = 0` and a blocked call at
`t = 10`. -/
theorem C4_witness :
    (cbDefault.runTrace ([0, 0, 0, 0, 0].map fun t => (t, false))).1.state = .OPEN ∧
    (cbDefault.runTrace ([0, 0, 0, 0, 0].map fun t => (t, false))).2 =
      cbDefault.failureThreshold ∧
    ((cbDefault.runTrace ([0, 0, 0, 0, 0].map fun t => (t, false))).1.execute
        10 true).2 = (ExecResult.blocked, false) :=
  C4_threshold_opens_then_blocks cbDefault [0, 0, 0, 0, 0] 10 true
    (by decide) (by decide) (by decide) (by decide) (by decide)

/-- C10: when `execute` rejects a call because the breaker is `OPEN` and
`now < nextAttemptTime`, the rejection leaves `state`, `failureCount`,
`lastFailureTime`, `nextAttempt`, `metrics.failedRequests` and
`metrics.successfulRequests` unchanged and increments only
`metrics.totalRequests`; the wrapped operation is not invoked. -/
theorem C10_open_rejection_frame (cb : CircuitBreaker) (now : Nat) (op : Bool)
    (hstate : cb.state = .OPEN) (htime : now < cb.nextAttempt.getD 0) :
    (cb.execute now op).1.state = cb.state ∧
    (cb.execute now op).1.failureCount = cb.failureCount ∧
    (cb.execute now op).1.lastFailureTime = cb.lastFailureTime ∧
    (cb.execute now op).1.nextAttempt = cb.nextAttempt ∧
    (cb.execute now op).1.metrics.failedRequests = cb.metrics.failedRequests ∧
    (cb.execute now op).1.metrics.successfulRequests = cb.metrics.successfulRequests ∧
    (cb.execute now op).1.metrics.totalRequests = cb.metrics.totalRequests + 1 ∧
    (cb.execute now op).2 = (ExecResult.blocked, false) := by
  rw [cb.execute_open_blocked now op hstate htime]
  simp

/-- A concrete `OPEN` breaker used to instantiate `C10_open_rejection_frame`. -/
def cbOpenW : CircuitBreaker :=
  { failureThreshold := 5, resetTimeout := 30000, state := .OPEN
    failureCount := 5, lastFailureTime := some 0, nextAttempt := some 30000
    successCount := 0, metrics := ⟨5, 0, 5, 1, 0⟩ }

/-- C10 witness: concrete instantiation of `C10_open_rejection_frame`. -/
theorem C10_witness :
    (cbOpenW.execute 10 true).1.state = cbOpenW.state ∧
    (cbOpenW.execute 10 true).1.failureCount = cbOpenW.failureCount ∧
    (cbOpenW.execute 10 true).1.lastFailureTime = cbOpenW.lastFailureTime ∧
    (cbOpenW.execute 10 true).1.nextAttempt = cbOpenW.nextAttempt ∧
    (cbOpenW.execute 10 true).1.metrics.failedRequests =
      cbOpenW.metrics.failedRequests ∧
    (cbOpenW.execute 10 true).1.metrics.successfulRequests =
      cbOpenW.metrics.successfulRequests ∧
    (cbOpenW.execute 10 true).1.metrics.totalRequests =
      cbOpenW.metrics.totalRequests + 1 ∧
    (cbOpenW.execute 10 true).2 = (ExecResult.blocked, false) :=
  C10_open_rejection_frame cbOpenW 10 true (by decide) (by decide)

/-- All-failing runs of the retry loop: every attempt is invoked and the last
failure is returned. -/
theorem RetryManager.executeLoop_allFail (fn : Nat → Except ε α) (e : Nat → ε)
    (hfail : ∀ i, fn i = .error (e i)) :
    ∀ (remaining attempt : Nat),
      RetryManager.executeLoop fn attempt remaining =
        (.error (e (attempt + remaining)), remaining + 1)
  | 0, attempt => by simp [RetryManager.executeLoop, hfail attempt]
  | remaining + 1, attempt => by
    have IH := RetryManager.executeLoop_allFail fn e hfail remaining (attempt + 1)
    simp only [RetryManager.executeLoop, hfail attempt, IH]
    have harg : attempt + 1 + remaining = attempt + (remaining + 1) := by omega
    have hcnt : 1 + (remaining + 1) = remaining + 1 + 1 := by omega
    rw [harg, hcnt]

/-- Runs of the retry loop whose first success is at absolute attempt `k`:
the loop stops right there. -/
theorem RetryManager.executeLoop_firstSuccess (fn : Nat → Except ε α)
    (k : Nat) (a : α) (hk : fn k = .ok a)
    (hbefore : ∀ j, j < k → ∃ er, fn j = .error er) :
    ∀ (remaining attempt : Nat), attempt ≤ k → k ≤ attempt + remaining →
      RetryManager.executeLoop fn attempt remaining = (.ok a, k - attempt + 1)
  | 0, attempt, hle, hge => by
    have : attempt = k := by omega
    subst this
    simp [RetryManager.executeLoop, hk]
  | remaining + 1, attempt, hle, hge => by
    by_cases hak : attempt = k
    · subst hak
      simp [RetryManager.executeLoop, hk]
    · obtain ⟨er, her⟩ := hbefore attempt (by omega)
      have IH := RetryManager.executeLoop_firstSuccess fn k a hk hbefore
        remaining (attempt + 1) (by omega) (by omega)
      simp only [RetryManager.executeLoop, her, IH]
      have hcnt : 1 + (k - (attempt + 1) + 1) = k - attempt + 1 := by omega
      rw [hcnt]

/-- C5: an operation failing on every attempt is invoked exactly
`maxRetries + 1` times and the last failure is propagated; an operation whose
first success is on (0-indexed) attempt `k ≤ maxRetries` yields that success
after exactly `k + 1` invocations. -/
theorem C5_retry_bound {ε α : Type} (rm : RetryManager) :
    (∀ (fn : Nat → Except ε α) (e : Nat → ε), (∀ i, fn i = .error (e i)) →
      rm.execute fn = (.error (e rm.maxRetries), rm.maxRetries + 1)) ∧
    (∀ (fn : Nat → Except ε α) (k : Nat) (a : α), k ≤ rm.maxRetries →
      (∀ j, j < k → ∃ er, fn j = .error er) → fn k = .ok a →
      rm.execute fn = (.ok a, k + 1)) := by
  constructor
  · intro fn e hfail
    have h := RetryManager.executeLoop_allFail fn e hfail rm.maxRetries 0
    simpa [RetryManager.execute] using h
  · intro fn k a hkle hbefore hk
    have h := RetryManager.executeLoop_firstSuccess fn k a hk hbefore
      rm.maxRetries 0 (by omega) (by omega)
    simpa [RetryManager.execute] using h

/-- C5 witness: with the default `maxRetries = 3`, an always-failing
operation is invoked 4 times and the attempt-3 error is returned; an
operation first succeeding on attempt 1 returns that success after 2
invocations. -/
theorem C5_witness :
    RetryManager.default.execute (fun i => (.error i : Except Nat Nat)) =
      (.error 3, 4) ∧
    RetryManager.default.execute
      (fun i => if i = 1 then (.ok 42 : Except Nat Nat) else .error i) =
      (.ok 42, 2) :=
  ⟨(C5_retry_bound RetryManager.default).1 _ (fun i => i) (fun _ => rfl),
   (C5_retry_bound RetryManager.default).2 _ 1 42 (by decide)
     (fun j hj => ⟨j, by interval_cases j; rfl⟩) rfl⟩

/-- C6 (counterexample): with the default configuration, attempt index 5 and
a random draw of `1/2`, the source's `calculateDelay` yields `30000` (the
jitter is added *before* clamping, so the result never exceeds `maxDelay`),
whereas the claim's clamp-then-add-jitter formula would yield `31500`. -/
theorem C6_counterexample :
    RetryManager.default.calculateDelay 5 (1/2) = 30000 ∧
    RetryManager.default.calculateDelaySpec 5 (1/2) = 31500 ∧
    RetryManager.default.calculateDelay 5 (1/2) ≠
      RetryManager.default.calculateDelaySpec 5 (1/2) := by
  refine ⟨?_, ?_, ?_⟩ <;>
    norm_num [RetryManager.calculateDelay, RetryManager.calculateDelaySpec,
      RetryManager.default]

/-- C6 (amended): the retry delay adds jitter of
`exponentialTerm × jitterFraction × random` to the *unclamped* exponential
term and then clamps the sum to `maxDelay` before flooring; consequently the
computed delay never exceeds `⌊maxDelay⌋`, and whenever the exponential term
already reaches `maxDelay` (and the jitter term is nonnegative) the delay is
exactly `⌊maxDelay⌋` — it never exceeds it by the jitter amount. -/
theorem C6_delay_clamped (rm : RetryManager) (attempt : Nat) (r : ℚ) :
    rm.calculateDelay attempt r ≤ ⌊rm.maxDelay⌋ ∧
    (rm.maxDelay ≤ rm.baseDelay * rm.backoffMultiplier ^ attempt →
      0 ≤ rm.baseDelay * rm.backoffMultiplier ^ attempt * rm.jitter * r →
      rm.calculateDelay attempt r = ⌊rm.maxDelay⌋) := by
  constructor
  · exact Int.floor_le_floor (min_le_right _ _)
  · intro hmax hjit
    have hmin : min (rm.baseDelay * rm.backoffMultiplier ^ attempt +
        rm.baseDelay * rm.backoffMultiplier ^ attempt * rm.jitter * r)
        rm.maxDelay = rm.maxDelay :=
      min_eq_right (le_trans hmax (le_add_of_nonneg_right hjit))
    simp only [RetryManager.calculateDelay]
    rw [hmin]

/-- C6 witness: concrete instantiation of `C6_delay_clamped` at the default
configuration, attempt 5, random draw `1/2`. -/
theorem C6_witness :
    RetryManager.default.calculateDelay 5 (1/2) ≤ ⌊RetryManager.default.maxDelay⌋ ∧
    RetryManager.default.calculateDelay 5 (1/2) = ⌊RetryManager.default.maxDelay⌋ :=
  ⟨(C6_delay_clamped RetryManager.default 5 (1/2)).1,
   (C6_delay_clamped RetryManager.default 5 (1/2)).2
     (by norm_num [RetryManager.default]) (by norm_num [RetryManager.default])⟩

/-!
Part 2 embeds the `SecurityEnhancement` class of the security module
(`encryptToken`, `decryptToken`, `logAudit`, `getAuditLogs`).

The crypto-js primitives are third-party externals and are modelled as an
ideal symbolic cipher: `CryptoJS.PBKDF2` is the free (collision-free)
function of its inputs; `CryptoJS.AES.encrypt(..).toString()` is the
injective constructor `Ciphertext.aes`; decryption with the matching key and
IV recovers the plaintext, while decryption with a wrong key/IV or of a
non-ciphertext blob produces an arbitrary caller-supplied behaviour
(`MisdecryptBehavior`): either a thrown error (crypto-js raises e.g.
"Malformed UTF-8 data") or some leftover string (typically empty).  Random
salts/IVs (`CryptoJS.lib.WordArray.random`) are explicit inputs, hex
encoding of salt/IV is a bijection on byte strings and is elided, and
`Date.now()` / ISO-8601 timestamps are modelled by their epoch value.

`JSON.stringify` of the fixed envelope `{token, additionalData, tenantId,
ts}` is modelled concretely, including string escaping, and `JSON.parse` by
a concrete parser of that shape (JSON values that parse but are not this
envelope are conflated with parse failures; in either case the source
returns `null` with a `decrypt_failed`/`decrypt_error` audit entry).
-/

/-- JSON string escaping for the characters that can occur inside the
envelope fields: quote, backslash and the common control characters
(`JSON.stringify` escapes these; the remaining `\uXXXX` control-character
escapes are elided). -/
def escapeChar (c : Char) : List Char :=
  if c = '"' then ['\\', '"']
  else if c = '\\' then ['\\', '\\']
  else if c = '\n' then ['\\', 'n']
  else if c = '\t' then ['\\', 't']
  else if c = '\r' then ['\\', 'r']
  else [c]

/-- Escape a whole string (as a character list). -/
def escapeList : List Char → List Char
  | [] => []
  | c :: cs => escapeChar c ++ escapeList cs

/-- Inverse of `escapeChar` on the character following a backslash. -/
def unescapeChar (c : Char) : Option Char :=
  if c = '"' then some '"'
  else if c = '\\' then some '\\'
  else if c = 'n' then some '\n'
  else if c = 't' then some '\t'
  else if c = 'r' then some '\r'
  else none

/-- Read a JSON string body up to its closing unescaped quote, unescaping as
it goes; returns the decoded characters and the input after the quote. -/
def readJsonString : List Char → Option (List Char × List Char)
  | [] => none
  | c :: rest =>
    if c = '"' then some ([], rest)
    else if c = '\\' then
      match rest with
      | [] => none
      | e :: rest' =>
        match unescapeChar e, readJsonString rest' with
        | some u, some (s, r) => some (u :: s, r)
        | _, _ => none
    else
      match readJsonString rest with
      | some (s, r) => some (c :: s, r)
      | none => none

/-- Expect a fixed literal prefix; return the rest of the input. -/
def parseLit : List Char → List Char → Option (List Char)
  | [], input => some input
  | _ :: _, [] => none
  | l :: ls, c :: cs => if c = l then parseLit ls cs else none

/-- Read input up to the closing `\x7d` of the envelope. -/
def readUntilBrace : List Char → Option (List Char × List Char)
  | [] => none
  | c :: cs =>
    if c = '\x7d' then some ([], cs)
    else
      match readUntilBrace cs with
      | some (s, r) => some (c :: s, r)
      | none => none

/-- The decimal digit character for `d < 10`. -/
def digitChar (d : Nat) : Char := Char.ofNat (48 + d)

/-- Decimal printing of a natural number with explicit fuel (the fuel
`n + 1` used by `natToDigits` is always sufficient), kept structural so that
concrete tokens evaluate inside the kernel. -/
def natToDigitsAux : Nat → Nat → List Char
  | 0, _ => []
  | fuel + 1, n =>
    if n < 10 then [digitChar n]
    else natToDigitsAux fuel (n / 10) ++ [digitChar (n % 10)]

/-- Decimal representation of `n`, as `JSON.stringify` renders the numeric
`ts` field. -/
def natToDigits (n : Nat) : List Char := natToDigitsAux (n + 1) n

/-- Numeric value of a digit character. -/
def digitVal (c : Char) : Nat := c.toNat - 48

/-- Read a digit string back as a number. -/
def digitsToNat (ds : List Char) : Nat :=
  ds.foldl (fun n c => 10 * n + digitVal c) 0

/-- The plaintext JSON envelope `payload` built by `encryptToken`:
`{ token, additionalData: additionalData || null, tenantId, ts: Date.now() }`. -/
structure TokenPayload where
  token : String
  additionalData : Option String
  tenantId : String
  ts : Nat
deriving DecidableEq, Repr

/-- The envelope key `"token":"` (with its opening quote). -/
def litToken : List Char := "\"token\":\"".data

/-- The envelope key `,"additionalData":`. -/
def litAd : List Char := ",\"additionalData\":".data

/-- The envelope key `,"tenantId":"`. -/
def litTenant : List Char := ",\"tenantId\":\"".data

/-- The envelope key `,"ts":`. -/
def litTs : List Char := ",\"ts\":".data

/-- Serialization of the `additionalData` field: `null` or a JSON string. -/
def adPart : Option String → List Char
  | none => ['n', 'u', 'l', 'l']
  | some a => '"' :: escapeList a.data ++ ['"']

/-- `JSON.stringify(payload)`: the keys appear in insertion order
`token`, `additionalData`, `tenantId`, `ts`. -/
def stringifyPayload (p : TokenPayload) : String :=
  ⟨'\x7b' :: (litToken ++ escapeList p.token.data ++ '"' ::
    (litAd ++ adPart p.additionalData ++
      (litTenant ++ escapeList p.tenantId.data ++ '"' ::
        (litTs ++ natToDigits p.ts ++ ['\x7d']))))⟩

/-- Parse the `additionalData` value: `null` or a JSON string. -/
def parseAd : List Char → Option (Option String × List Char)
  | [] => none
  | c :: rest =>
    if c = '"' then
      match readJsonString rest with
      | some (ad, r) => some (some ⟨ad⟩, r)
      | none => none
    else if c = 'n' then
      match rest with
      | u :: l1 :: l2 :: r =>
        if u = 'u' ∧ l1 = 'l' ∧ l2 = 'l' then some (none, r) else none
      | _ => none
    else none

/-- `JSON.parse` restricted to the envelope shape produced by
`stringifyPayload`; any other input is rejected. -/
def parsePayload (s : String) : Option TokenPayload :=
  match s.data with
  | '\x7b' :: r0 =>
    match parseLit litToken r0 with
    | none => none
    | some r1 =>
      match readJsonString r1 with
      | none => none
      | some (tok, r2) =>
        match parseLit litAd r2 with
        | none => none
        | some r3 =>
          match parseAd r3 with
          | none => none
          | some (ad, r4) =>
            match parseLit litTenant r4 with
            | none => none
            | some r5 =>
              match readJsonString r5 with
              | none => none
              | some (ten, r6) =>
                match parseLit litTs r6 with
                | none => none
                | some r7 =>
                  match readUntilBrace r7 with
                  | none => none
                  | some (ds, r8) =>
                    if r8 = [] ∧ ds ≠ [] ∧ ds.all Char.isDigit then
                      some ⟨⟨tok⟩, ad, ⟨ten⟩, digitsToNat ds⟩
                    else none
  | _ => none

/-- A PBKDF2-derived key, modelled as the ideal (collision-free) function of
password, salt and iteration count (key size and SHA-256 hasher are fixed in
the source and elided). -/
structure DerivedKey where
  password : String
  salt : Nat
  iterations : Nat
deriving DecidableEq, Repr

/-- `CryptoJS.PBKDF2(password, salt, {keySize: 256/32, iterations, hasher:
SHA256})`. -/
def PBKDF2 (password : String) (salt : Nat) (iterations : Nat) : DerivedKey :=
  ⟨password, salt, iterations⟩

/-- The serialized output of `CryptoJS.AES.encrypt(..).toString()`, modelled
symbolically: a well-formed AES-CBC-PKCS7 ciphertext determined by
plaintext, key and IV, or an arbitrary non-ciphertext blob. -/
inductive Ciphertext where
  | aes (plaintext : String) (key : DerivedKey) (iv : Nat)
  | garbage (blob : String)
deriving DecidableEq, Repr

/-- What `AES.decrypt(..).toString(Utf8)` does when the key or IV does not
match (bad padding, garbled bytes): crypto-js either throws (e.g.
"Malformed UTF-8 data") or yields a leftover string (typically empty). -/
inductive MisdecryptBehavior where
  | throws (msg : String)
  | yields (s : String)

/-- Lift a `MisdecryptBehavior` into the `Except` used for the `try` block. -/
def MisdecryptBehavior.run : MisdecryptBehavior → Except String String
  | .throws msg => .error msg
  | .yields s => .ok s

/-- `CryptoJS.AES.decrypt(encrypted, key, {iv, CBC, Pkcs7}).toString(Utf8)`
under the ideal-cipher model: the matching key and IV recover the
plaintext; anything else behaves as `mis`. -/
def aesDecryptUtf8 (ct : Ciphertext) (key : DerivedKey) (iv : Nat)
    (mis : MisdecryptBehavior) : Except String String :=
  match ct with
  | .aes p k i => if k = key ∧ i = iv then .ok p else mis.run
  | .garbage _ => mis.run

/-- The `EncryptedToken` value object (`iv`/`salt` stand for the hex-encoded
random word arrays, `timestamp` for `Date.now()`). -/
structure EncryptedToken where
  encrypted : Ciphertext
  iv : Nat
  salt : Nat
  timestamp : Nat
deriving DecidableEq, Repr

/-- `SecurityConfig` as stored after the constructor's
`\x7b pbkdf2Iterations: 100000, ...config \x7d` default merge (the unused
`auditLogEndpoint`/`sdkVersion` fields are elided). -/
structure SecurityConfig where
  encryptionKey : String
  tenantId : String
  enableAuditLogging : Bool
  pbkdf2Iterations : Nat
deriving DecidableEq, Repr

/-- The `pbkdf2Iterations || 100000` fallback applied at each use site. -/
def SecurityConfig.effIterations (c : SecurityConfig) : Nat :=
  if c.pbkdf2Iterations = 0 then 100000 else c.pbkdf2Iterations

/-- An audit log entry (the fields the claims are about; `timestamp` is the
epoch value of the ISO-8601 string, optional ids/amount and the fixed
metadata/ip/user-agent fields are elided). -/
structure AuditLogEntry where
  timestamp : Nat
  tenantId : String
  action : String
  status : String
  details : String
deriving DecidableEq, Repr

/-- A `SecurityEnhancement` instance: its stored config and the in-memory
`auditLogs` buffer. -/
structure SecurityEnhancement where
  config : SecurityConfig
  auditLogs : List AuditLogEntry
deriving DecidableEq, Repr

/-- `new SecurityEnhancement(config)`: `none` models an absent
`pbkdf2Iterations`, in which case the constructor merge stores `100000`. -/
def SecurityEnhancement.create (encryptionKey tenantId : String)
    (enableAuditLogging : Bool) (pbkdf2Iterations : Option Nat) :
    SecurityEnhancement :=
  { config := { encryptionKey := encryptionKey, tenantId := tenantId
                enableAuditLogging := enableAuditLogging
                pbkdf2Iterations := pbkdf2Iterations.getD 100000 }
    auditLogs := [] }

/-- `logAudit(action, details)` (the call shape used by `decryptToken`):
a no-op unless `enableAuditLogging`; otherwise appends an entry stamped with
the vault's `tenantId` and the current time. -/
def SecurityEnhancement.logAudit (v : SecurityEnhancement) (now : Nat)
    (action details : String) : SecurityEnhancement :=
  if v.config.enableAuditLogging then
    { v with auditLogs := v.auditLogs ++
        [{ timestamp := now, tenantId := v.config.tenantId, action := action
           status := "success", details := details }] }
  else v

/-- `encryptToken(token, additionalData?)` with the fresh random draws
`salt`/`iv` and `Date.now()` passed in explicitly.  The envelope field is
`additionalData || null`, so an empty string is stored as `null`. -/
def SecurityEnhancement.encryptToken (v : SecurityEnhancement) (token : String)
    (additionalData : Option String) (salt iv now : Nat) : EncryptedToken :=
  let iterations := v.config.effIterations
  let key := PBKDF2 v.config.encryptionKey salt iterations
  let payload : TokenPayload :=
    { token := token
      additionalData :=
        match additionalData with
        | some a => if a = "" then none else some a
        | none => none
      tenantId := v.config.tenantId
      ts := now }
  { encrypted := .aes (stringifyPayload payload) key iv
    iv := iv, salt := salt, timestamp := now }

/-- The body of `decryptToken`'s `try` block: re-derive the key, decrypt,
reject empty plaintext, parse the envelope and validate the tenant.
`Except.error` models a thrown exception (caught by the enclosing catch). -/
def SecurityEnhancement.decryptTokenBody (v : SecurityEnhancement)
    (tok : EncryptedToken) (mis : MisdecryptBehavior) (now : Nat) :
    Except String (Option String × SecurityEnhancement) :=
  let iterations := v.config.effIterations
  let key := PBKDF2 v.config.encryptionKey tok.salt iterations
  match aesDecryptUtf8 tok.encrypted key tok.iv mis with
  | .error e => .error e
  | .ok decryptedString =>
    if decryptedString = "" then
      .ok (none, v.logAudit now "decrypt_failed"
        "Token decryption failed - invalid data")
    else
      match parsePayload decryptedString with
      | none => .error "SyntaxError: Unexpected token in JSON"
      | some payload =>
        if payload.tenantId ≠ v.config.tenantId then
          .ok (none, v.logAudit now "decrypt_failed"
            "Token decryption failed - tenant mismatch")
        else
          .ok (some payload.token,
            v.logAudit now "decrypt_success" "Token decrypted successfully")

/-- `decryptToken(encryptedToken)`: the `try`/`catch` wrapper — any thrown
error degrades to a `null` return plus a `decrypt_error` audit entry. -/
def SecurityEnhancement.decryptToken (v : SecurityEnhancement)
    (tok : EncryptedToken) (mis : MisdecryptBehavior) (now : Nat) :
    Option String × SecurityEnhancement :=
  match v.decryptTokenBody tok mis now with
  | .ok r => r
  | .error e =>
    (none, v.logAudit now "decrypt_error" ("Token decryption error: " ++ e))

/-- The order imposed by the sort comparator
`new Date(b.timestamp).getTime() - new Date(a.timestamp).getTime()`:
newest (largest timestamp) first. -/
def newestFirst (x y : AuditLogEntry) : Prop := y.timestamp ≤ x.timestamp

instance : DecidableRel newestFirst := fun x y => Nat.decLe y.timestamp x.timestamp

instance : IsTotal AuditLogEntry newestFirst :=
  ⟨fun a b => Nat.le_total b.timestamp a.timestamp⟩

instance : IsTrans AuditLogEntry newestFirst :=
  ⟨fun _ _ _ hab hbc => le_trans hbc hab⟩

/-- `getAuditLogs(startDate?, endDate?, action?)`: filter to the vault's own
tenant, then by the inclusive date bounds and exact action when given, and
sort newest-first (`Array.prototype.sort` with comparator
`new Date(b.timestamp) - new Date(a.timestamp)` is a stable sort by
descending timestamp, modelled by insertion sort). -/
def SecurityEnhancement.getAuditLogs (v : SecurityEnhancement)
    (startDate endDate : Option Nat) (action : Option String) :
    List AuditLogEntry :=
  let filtered := v.auditLogs.filter (fun log =>
    log.tenantId = v.config.tenantId)
  let filtered :=
    match startDate with
    | some start => filtered.filter (fun log : AuditLogEntry => start ≤ log.timestamp)
    | none => filtered
  let filtered :=
    match endDate with
    | some e => filtered.filter (fun log : AuditLogEntry => log.timestamp ≤ e)
    | none => filtered
  let filtered :=
    match action with
    | some a => filtered.filter (fun log : AuditLogEntry => log.action = a)
    | none => filtered
  filtered.insertionSort newestFirst

/-! ### Round-trip lemmas for the JSON envelope -/

/-- The cons-case equation of `readJsonString`. -/
theorem readJsonString_cons (c : Char) (rest : List Char) :
    readJsonString (c :: rest) =
      (if c = '"' then some ([], rest)
       else if c = '\\' then
         match rest with
         | [] => none
         | e :: rest' =>
           match unescapeChar e, readJsonString rest' with
           | some u, some (s, r) => some (u :: s, r)
           | _, _ => none
       else
         match readJsonString rest with
         | some (s, r) => some (c :: s, r)
         | none => none) := by
  rw [readJsonString.eq_def]

/-- Reading back an escaped string recovers it and stops at the closing
quote. -/
theorem readJsonString_escape (s rest : List Char) :
    readJsonString (escapeList s ++ '"' :: rest) = some (s, rest) := by
  induction s with
  | nil => simp [escapeList, readJsonString_cons]
  | cons c cs ih =>
    simp only [escapeList, List.append_assoc]
    by_cases h1 : c = '"'
    · subst h1; simp [escapeChar, readJsonString_cons, unescapeChar, ih]
    · by_cases h2 : c = '\\'
      · subst h2; simp [escapeChar, readJsonString_cons, unescapeChar, ih]
      · by_cases h3 : c = '\n'
        · subst h3; simp [escapeChar, readJsonString_cons, unescapeChar, ih]
        · by_cases h4 : c = '\t'
          · subst h4; simp [escapeChar, readJsonString_cons, unescapeChar, ih]
          · by_cases h5 : c = '\r'
            · subst h5; simp [escapeChar, readJsonString_cons, unescapeChar, ih]
            · simp [escapeChar, readJsonString_cons, h1, h2, h3, h4, h5, ih]

/-- A literal prefix parses off exactly itself. -/
theorem parseLit_append (lit rest : List Char) :
    parseLit lit (lit ++ rest) = some rest := by
  induction lit with
  | nil => simp [parseLit]
  | cons l ls ih => simp [parseLit, ih]

/-- Reading up to the closing brace recovers a brace-free prefix. -/
theorem readUntilBrace_append (ds rest : List Char)
    (h : ∀ c ∈ ds, ¬ c = '\x7d') :
    readUntilBrace (ds ++ '\x7d' :: rest) = some (ds, rest) := by
  induction ds with
  | nil => simp [readUntilBrace]
  | cons c cs ih =>
    have hc := h c (by simp)
    have ih' := ih (fun c hc => h c (by simp [hc]))
    simp [readUntilBrace, hc, ih']

/-- Digit characters are digits. -/
theorem digitChar_isDigit (d : Nat) (h : d < 10) : (digitChar d).isDigit = true := by
  interval_cases d <;> decide

/-- The decimal printer yields a nonempty, digits-only string. -/
theorem natToDigitsAux_spec : ∀ (fuel n : Nat), n < fuel →
    natToDigitsAux fuel n ≠ [] ∧ ∀ c ∈ natToDigitsAux fuel n, c.isDigit = true
  | 0, _, h => absurd h (by omega)
  | fuel + 1, n, h => by
    by_cases h10 : n < 10
    · refine ⟨?_, ?_⟩ <;> simp [natToDigitsAux, h10, digitChar_isDigit n h10]
    · have hdiv : n / 10 < n := Nat.div_lt_self (by omega) (by omega)
      have hrec := natToDigitsAux_spec fuel (n / 10) (by omega)
      refine ⟨by simp [natToDigitsAux, h10], ?_⟩
      intro c hc
      simp only [natToDigitsAux, if_neg h10, List.mem_append, List.mem_singleton] at hc
      rcases hc with hc | hc
      · exact hrec.2 c hc
      · subst hc; exact digitChar_isDigit _ (Nat.mod_lt _ (by omega))

theorem natToDigits_ne_nil (n : Nat) : natToDigits n ≠ [] :=
  (natToDigitsAux_spec (n + 1) n (by omega)).1

theorem natToDigits_isDigit (n : Nat) : ∀ c ∈ natToDigits n, c.isDigit = true :=
  (natToDigitsAux_spec (n + 1) n (by omega)).2

theorem natToDigits_ne_brace (n : Nat) : ∀ c ∈ natToDigits n, ¬ c = '\x7d' := by
  intro c hc he
  subst he
  exact absurd (natToDigits_isDigit n _ hc) (by decide)

/-- Parsing back a stringified envelope succeeds and recovers the `token`,
`additionalData` and `tenantId` fields (the numeric `ts` field re-reads as
`digitsToNat` of its decimal representation). -/
theorem parsePayload_stringify (p : TokenPayload) :
    parsePayload (stringifyPayload p) =
      some { p with ts := digitsToNat (natToDigits p.ts) } := by
  obtain ⟨tok, ad, ten, ts⟩ := p
  have hbrace := readUntilBrace_append (natToDigits ts) [] (natToDigits_ne_brace ts)
  have hdig : (natToDigits ts).all Char.isDigit = true :=
    List.all_eq_true.mpr (natToDigits_isDigit ts)
  rcases ad with _ | a <;>
    simp [parsePayload, stringifyPayload, adPart, parseAd, parseLit_append,
      readJsonString_escape, hbrace, hdig, natToDigits_ne_nil ts]

/-- A stringified envelope is never the empty string. -/
theorem stringifyPayload_ne_empty (p : TokenPayload) : ¬ stringifyPayload p = "" := by
  intro h
  have h2 := congrArg String.data h
  have h3 : ("".data : List Char) = [] := rfl
  rw [h3] at h2
  exact List.cons_ne_nil _ _ h2

/-! ### Helper lemmas for the vault -/

/-- With auditing enabled, `logAudit` appends exactly one entry stamped with
the vault's tenant. -/
theorem SecurityEnhancement.logAudit_append (v : SecurityEnhancement) (now : Nat)
    (action details : String) (h : v.config.enableAuditLogging = true) :
    (v.logAudit now action details).auditLogs = v.auditLogs ++
      [{ timestamp := now, tenantId := v.config.tenantId, action := action
         status := "success", details := details }] := by
  simp [SecurityEnhancement.logAudit, h]

/-- Decrypting a token freshly produced by `encryptToken` under the same
encryption key and effective iteration count: the re-derived key matches, the
envelope decrypts and parses back, and the outcome is decided by the tenant
check. -/
theorem decryptToken_encryptToken (v v2 : SecurityEnhancement)
    (hkey : v2.config.encryptionKey = v.config.encryptionKey)
    (hiter : v2.config.effIterations = v.config.effIterations)
    (s : String) (ad : Option String) (salt iv now : Nat)
    (mis : MisdecryptBehavior) (now2 : Nat) :
    v2.decryptToken (v.encryptToken s ad salt iv now) mis now2 =
      if v.config.tenantId = v2.config.tenantId then
        (some s, v2.logAudit now2 "decrypt_success" "Token decrypted successfully")
      else
        (none, v2.logAudit now2 "decrypt_failed"
          "Token decryption failed - tenant mismatch") := by
  by_cases hten : v.config.tenantId = v2.config.tenantId <;>
    simp [SecurityEnhancement.decryptToken, SecurityEnhancement.decryptTokenBody,
      SecurityEnhancement.encryptToken, aesDecryptUtf8, hkey, hiter,
      stringifyPayload_ne_empty, parsePayload_stringify, hten]

/-- The successful (`Except.ok`) results of `decryptTokenBody` that carry no
plaintext are exactly the two `decrypt_failed` outcomes. -/
theorem decryptTokenBody_ok_none (v : SecurityEnhancement) (tok : EncryptedToken)
    (mis : MisdecryptBehavior) (now : Nat)
    (r : Option String × SecurityEnhancement)
    (hok : v.decryptTokenBody tok mis now = .ok r) (hnone : r.1 = none) :
    r.2 = v.logAudit now "decrypt_failed" "Token decryption failed - invalid data" ∨
    r.2 = v.logAudit now "decrypt_failed" "Token decryption failed - tenant mismatch" := by
  simp only [SecurityEnhancement.decryptTokenBody] at hok
  split at hok
  · exact absurd hok (by simp)
  · split at hok
    · left
      obtain rfl : r = _ := by exact (Except.ok.injEq _ _).mp hok.symm
      rfl
    · split at hok
      · exact absurd hok (by simp)
      · split at hok
        · right
          obtain rfl : r = _ := by exact (Except.ok.injEq _ _).mp hok.symm
          rfl
        · obtain rfl : r = _ := by exact (Except.ok.injEq _ _).mp hok.symm
          exact absurd hnone (by simp)

/-! ### Claim theorems for the vault -/

/-- C1: with the same encryption key (and iteration setting) but different
tenant ids, a vault can never successfully decrypt another tenant's token —
`B.decryptToken(A.encryptToken(s))` returns `null` via the tenant-mismatch
path — while the encrypting vault itself decrypts it back to `s`, passing
the tenant check. -/
theorem C1_tenant_isolation (A B : SecurityEnhancement)
    (hkey : A.config.encryptionKey = B.config.encryptionKey)
    (hiter : A.config.effIterations = B.config.effIterations)
    (hten : A.config.tenantId ≠ B.config.tenantId)
    (s : String) (ad : Option String) (salt iv now : Nat)
    (mis : MisdecryptBehavior) (now2 : Nat) :
    (B.decryptToken (A.encryptToken s ad salt iv now) mis now2).1 = none ∧
    (A.decryptToken (A.encryptToken s ad salt iv now) mis now2).1 = some s := by
  constructor
  · rw [decryptToken_encryptToken A B hkey.symm hiter.symm s ad salt iv now mis now2]
    simp [hten]
  · rw [decryptToken_encryptToken A A rfl rfl s ad salt iv now mis now2]
    simp

/-- Vault `A` of the C1 witness (tenant `tenant-a`). -/
def vaultA : SecurityEnhancement :=
  SecurityEnhancement.create "shared-key" "tenant-a" true none

/-- Vault `B` of the C1 witness: same key, tenant `tenant-b`. -/
def vaultB : SecurityEnhancement :=
  SecurityEnhancement.create "shared-key" "tenant-b" true none

/-- C1 witness: concrete instantiation of `C1_tenant_isolation`. -/
theorem C1_witness :
    (vaultB.decryptToken (vaultA.encryptToken "tok-1" none 7 11 1000)
      (MisdecryptBehavior.yields "") 2000).1 = none ∧
    (vaultA.decryptToken (vaultA.encryptToken "tok-1" none 7 11 1000)
      (MisdecryptBehavior.yields "") 2000).1 = some "tok-1" :=
  C1_tenant_isolation vaultA vaultB rfl rfl (by decide) "tok-1" none 7 11 1000
    (MisdecryptBehavior.yields "") 2000

/-- C3: on the same vault instance (same key and tenant) decrypting the
result of `encryptToken s ad` returns exactly `s`, for every non-empty
plaintext — including colon-containing payloads, which the JSON envelope
keeps apart from the tenant binding. -/
theorem C3_roundtrip_same_vault (v : SecurityEnhancement) (s : String)
    (ad : Option String) (salt iv now : Nat) (mis : MisdecryptBehavior)
    (now2 : Nat) (_hs : s ≠ "") :
    (v.decryptToken (v.encryptToken s ad salt iv now) mis now2).1 = some s := by
  rw [decryptToken_encryptToken v v rfl rfl s ad salt iv now mis now2]
  simp

/-- The vault of the concrete colon scenario (tenant `tenant-test`). -/
def vaultTest : SecurityEnhancement :=
  SecurityEnhancement.create "test-key-123" "tenant-test" true none

/-- C3 witness: the spec's concrete colon scenario round-trips. -/
theorem C3_witness :
    (vaultTest.decryptToken
      (vaultTest.encryptToken "token:with:multiple:colons:and:data"
        (some "additional:data:with:colons") 7 11 1000)
      (MisdecryptBehavior.yields "") 2000).1 =
      some "token:with:multiple:colons:and:data" :=
  C3_roundtrip_same_vault vaultTest "token:with:multiple:colons:and:data"
    (some "additional:data:with:colons") 7 11 1000
    (MisdecryptBehavior.yields "") 2000 (by decide)

/-- C7: `decryptToken` never raises — every exception of the `try` body is
caught and becomes a `null` return — and with audit logging enabled every
failure path returns `null` and appends exactly one audit entry of kind
`decrypt_failed` or `decrypt_error`, stamped with the vault's tenant. -/
theorem C7_decrypt_never_raises (v : SecurityEnhancement) (tok : EncryptedToken)
    (mis : MisdecryptBehavior) (now : Nat)
    (haudit : v.config.enableAuditLogging = true) :
    (∀ err, v.decryptTokenBody tok mis now = .error err →
      (v.decryptToken tok mis now).1 = none) ∧
    ((v.decryptToken tok mis now).1 = none →
      ∃ e, (v.decryptToken tok mis now).2.auditLogs = v.auditLogs ++ [e] ∧
        (e.action = "decrypt_failed" ∨ e.action = "decrypt_error") ∧
        e.tenantId = v.config.tenantId) := by
  constructor
  · intro err herr
    simp [SecurityEnhancement.decryptToken, herr]
  · intro hnone
    cases hbody : v.decryptTokenBody tok mis now with
    | error e =>
      refine ⟨⟨now, v.config.tenantId, "decrypt_error", "success",
        "Token decryption error: " ++ e⟩, ?_, Or.inr rfl, rfl⟩
      simp [SecurityEnhancement.decryptToken, hbody,
        SecurityEnhancement.logAudit_append _ _ _ _ haudit]
    | ok r =>
      have hres : v.decryptToken tok mis now = r := by
        simp [SecurityEnhancement.decryptToken, hbody]
      rw [hres] at hnone ⊢
      rcases decryptTokenBody_ok_none v tok mis now r hbody hnone with h2 | h2
      · exact ⟨⟨now, v.config.tenantId, "decrypt_failed", "success",
          "Token decryption failed - invalid data"⟩,
          by rw [h2, SecurityEnhancement.logAudit_append _ _ _ _ haudit],
          Or.inl rfl, rfl⟩
      · exact ⟨⟨now, v.config.tenantId, "decrypt_failed", "success",
          "Token decryption failed - tenant mismatch"⟩,
          by rw [h2, SecurityEnhancement.logAudit_append _ _ _ _ haudit],
          Or.inl rfl, rfl⟩

/-- The failure behaviour used in the C7 witness: crypto-js throwing on
malformed bytes. -/
def misThrows : MisdecryptBehavior := MisdecryptBehavior.throws "Malformed UTF-8 data"

/-- A garbage (non-ciphertext) token used in the C7 witness. -/
def tokGarbage : EncryptedToken := ⟨Ciphertext.garbage "AAAA", 1, 2, 3⟩

/-- C7 witness: decrypting a garbage token on an auditing vault returns
`null` and appends a `decrypt_failed`/`decrypt_error` entry. -/
theorem C7_witness :
    ∃ e, (vaultA.decryptToken tokGarbage misThrows 5).2.auditLogs =
        vaultA.auditLogs ++ [e] ∧
      (e.action = "decrypt_failed" ∨ e.action = "decrypt_error") ∧
      e.tenantId = vaultA.config.tenantId :=
  (C7_decrypt_never_raises vaultA tokGarbage misThrows 5 (by decide)).2 (by decide)

/-- C8: two `encryptToken` calls for the same plaintext whose fresh random
draws differ (in the salt or the IV) produce different `encrypted` fields —
encryption is non-deterministic under fresh randomness. -/
theorem C8_fresh_randomness (v : SecurityEnhancement) (s : String)
    (ad : Option String) (salt1 iv1 now1 salt2 iv2 now2 : Nat)
    (h : ¬ (salt1 = salt2 ∧ iv1 = iv2)) :
    (v.encryptToken s ad salt1 iv1 now1).encrypted ≠
      (v.encryptToken s ad salt2 iv2 now2).encrypted := by
  intro hc
  simp only [SecurityEnhancement.encryptToken, Ciphertext.aes.injEq, PBKDF2,
    DerivedKey.mk.injEq] at hc
  exact h ⟨hc.2.1.2.1, hc.2.2⟩

/-- C8 witness: concrete instantiation of `C8_fresh_randomness`. -/
theorem C8_witness :
    (vaultA.encryptToken "tok-1" none 7 11 1000).encrypted ≠
      (vaultA.encryptToken "tok-1" none 8 11 1000).encrypted :=
  C8_fresh_randomness vaultA "tok-1" none 7 11 1000 8 11 1000 (by decide)

/-- The filter the claim describes: own tenant, inclusive date bounds when
given, exact action match when given. -/
def auditPred (tenantId : String) (startDate endDate : Option Nat)
    (action : Option String) (log : AuditLogEntry) : Bool :=
  decide (log.tenantId = tenantId) &&
  startDate.all (fun s => decide (s ≤ log.timestamp)) &&
  endDate.all (fun e => decide (log.timestamp ≤ e)) &&
  action.all (fun a => decide (log.action = a))

/-- `getAuditLogs` returns a permutation of the stored entries passing the
claim's filter. -/
theorem getAuditLogs_perm_filter (v : SecurityEnhancement)
    (startDate endDate : Option Nat) (action : Option String) :
    (v.getAuditLogs startDate endDate action).Perm
      (v.auditLogs.filter (auditPred v.config.tenantId startDate endDate action)) := by
  unfold SecurityEnhancement.getAuditLogs
  rcases startDate with _ | sd <;> rcases endDate with _ | ed <;>
    rcases action with _ | a <;>
  · refine (List.perm_insertionSort newestFirst _).trans (List.Perm.of_eq ?_)
    simp only [List.filter_filter]
    refine List.filter_congr ?_
    intro log _
    simp [auditPred, Bool.and_comm, Bool.and_assoc, Bool.and_left_comm]

/-- C9: `getAuditLogs(startDate?, endDate?, action?)` returns exactly the
stored entries with the vault's own `tenantId`, inside the inclusive
`[startDate, endDate]` bounds when given and with the exact `action` when
given, sorted newest-first; it never returns an entry with a different
`tenantId`. -/
theorem C9_getAuditLogs_filter_sort (v : SecurityEnhancement)
    (startDate endDate : Option Nat) (action : Option String) :
    (v.getAuditLogs startDate endDate action).Perm
      (v.auditLogs.filter (auditPred v.config.tenantId startDate endDate action)) ∧
    (v.getAuditLogs startDate endDate action).Sorted newestFirst ∧
    ∀ log ∈ v.getAuditLogs startDate endDate action,
      log.tenantId = v.config.tenantId := by
  refine ⟨getAuditLogs_perm_filter v startDate endDate action, ?_, ?_⟩
  · simp only [SecurityEnhancement.getAuditLogs]
    exact List.sorted_insertionSort newestFirst _
  · intro log hm
    have hmem := (getAuditLogs_perm_filter v startDate endDate action).mem_iff.mp hm
    have hpred := (List.mem_filter.mp hmem).2
    simp [auditPred] at hpred
    exact hpred.1.1.1

/-- The vault of the C9 witness, holding entries of two tenants and two
actions at distinct timestamps. -/
def vaultLogs : SecurityEnhancement :=
  { config := { encryptionKey := "k", tenantId := "tenant-a"
                enableAuditLogging := true, pbkdf2Iterations := 100000 }
    auditLogs :=
      [⟨1, "tenant-a", "a", "success", "d1"⟩,
       ⟨2, "tenant-a", "b", "success", "d2"⟩,
       ⟨3, "tenant-a", "a", "success", "d3"⟩,
       ⟨4, "tenant-b", "a", "success", "d4"⟩] }

/-- C9 witness: concrete instantiation of `C9_getAuditLogs_filter_sort`,
with the membership conclusion applied to the head of the returned list. -/
theorem C9_witness :
    ((vaultLogs.getAuditLogs (some 1) (some 3) (some "a")).Perm
      (vaultLogs.auditLogs.filter
        (auditPred vaultLogs.config.tenantId (some 1) (some 3) (some "a"))) ∧
     (vaultLogs.getAuditLogs (some 1) (some 3) (some "a")).Sorted newestFirst) ∧
    (⟨3, "tenant-a", "a", "success", "d3"⟩ : AuditLogEntry).tenantId =
      vaultLogs.config.tenantId :=
  ⟨⟨(C9_getAuditLogs_filter_sort vaultLogs (some 1) (some 3) (some "a")).1,
    (C9_getAuditLogs_filter_sort vaultLogs (some 1) (some 3) (some "a")).2.1⟩,
   (C9_getAuditLogs_filter_sort vaultLogs (some 1) (some 3) (some "a")).2.2
     ⟨3, "tenant-a", "a", "success", "d3"⟩ (by decide)⟩

end ShoraSDK
